import Mathlib

/-!
Verification of the physics-viva examiner client.

Shallow embedding of the exam-room module (base64 transport codec, PCM
conversion, audio playback scheduling, transcript assembly, producer
closing guards, error/retry handling) and of the app-level report
generation, together with proofs of the specified properties.
-/

namespace PhysicsViva

/-! ### Base64 transport codec

`encode` in the source builds a binary string from the byte array
(`String.fromCharCode`) and applies `btoa`; `decode` applies `atob` and
reads the character codes back.  We model bytes as natural numbers `< 256`
and base64 text as a list of characters.
-/

/-- Alphabet used by `btoa`/`atob` (RFC 4648 standard alphabet). -/
def b64Chars : List Char :=
  ['A', 'B', 'C', 'D', 'E', 'F', 'G', 'H', 'I', 'J', 'K', 'L', 'M',
   'N', 'O', 'P', 'Q', 'R', 'S', 'T', 'U', 'V', 'W', 'X', 'Y', 'Z',
   'a', 'b', 'c', 'd', 'e', 'f', 'g', 'h', 'i', 'j', 'k', 'l', 'm',
   'n', 'o', 'p', 'q', 'r', 's', 't', 'u', 'v', 'w', 'x', 'y', 'z',
   '0', '1', '2', '3', '4', '5', '6', '7', '8', '9', '+', '/']

/-- Character for a 6-bit group. -/
def sextetChar (n : Nat) : Char := b64Chars.getD n 'A'

/-- Index of a character in the base64 alphabet; `none` for characters
outside the alphabet (atob raises `InvalidCharacterError` there). -/
def charSextet (c : Char) : Option Nat :=
  let i := b64Chars.indexOf c
  if i < 64 then some i else none

/-- `encode`: byte list to base64 character list, three input bytes per
four output characters, zero-filled and `=`-padded at the end exactly as
`btoa` does. -/
def encode : List Nat → List Char
  | [] => []
  | [a] =>
      [sextetChar (a / 4), sextetChar (a % 4 * 16), '=', '=']
  | [a, b] =>
      [sextetChar (a / 4), sextetChar (a % 4 * 16 + b / 16),
       sextetChar (b % 16 * 4), '=']
  | a :: b :: c :: rest =>
      sextetChar (a / 4) :: sextetChar (a % 4 * 16 + b / 16) ::
      sextetChar (b % 16 * 4 + c / 64) :: sextetChar (c % 64) :: encode rest

/-- `decode`: base64 character list back to bytes (`atob` on the canonical
padded form that `btoa` emits, followed by `charCodeAt` extraction);
`none` models the `InvalidCharacterError` on malformed input. -/
def decode : List Char → Option (List Nat)
  | [] => some []
  | c1 :: c2 :: c3 :: c4 :: rest =>
      match charSextet c1, charSextet c2 with
      | some s1, some s2 =>
          if c3 = '=' then
            if c4 = '=' then
              if rest = [] then some [s1 * 4 + s2 / 16] else none
            else none
          else
            match charSextet c3 with
            | some s3 =>
                if c4 = '=' then
                  if rest = [] then
                    some [s1 * 4 + s2 / 16, s2 % 16 * 16 + s3 / 4]
                  else none
                else
                  match charSextet c4, decode rest with
                  | some s4, some tail =>
                      some ((s1 * 4 + s2 / 16) :: (s2 % 16 * 16 + s3 / 4) ::
                            (s3 % 4 * 64 + s4) :: tail)
                  | _, _ => none
            | none => none
      | _, _ => none
  | _ => none

/-- Looking up the character of a 6-bit value recovers the value
(alphabet has no duplicates), stated over `Fin 64` for decidability. -/
theorem charSextet_sextetChar_fin :
    ∀ s : Fin 64, charSextet (sextetChar s.val) = some s.val := by decide

theorem charSextet_sextetChar {s : Nat} (hs : s < 64) :
    charSextet (sextetChar s) = some s :=
  charSextet_sextetChar_fin ⟨s, hs⟩

/-- Alphabet characters are never the padding character. -/
theorem sextetChar_ne_pad_fin : ∀ s : Fin 64, sextetChar s.val ≠ '=' := by decide

theorem sextetChar_ne_pad {s : Nat} (hs : s < 64) : sextetChar s ≠ '=' :=
  sextetChar_ne_pad_fin ⟨s, hs⟩

/-- Core round-trip lemma: decoding an encoded byte list gives it back. -/
theorem decode_encode_aux :
    ∀ B : List Nat, (∀ b ∈ B, b < 256) → decode (encode B) = some B := by
  intro B
  induction B using encode.induct with
  | case1 => intro _; simp [encode, decode]
  | case2 a =>
      intro h
      have ha : a < 256 := h a (by simp)
      have h1 : a / 4 < 64 := by omega
      have h2 : a % 4 * 16 < 64 := by omega
      simp [encode, decode, charSextet_sextetChar h1, charSextet_sextetChar h2]
      all_goals omega
  | case3 a b =>
      intro h
      have ha : a < 256 := h a (by simp)
      have hb : b < 256 := h b (by simp)
      have h1 : a / 4 < 64 := by omega
      have h2 : a % 4 * 16 + b / 16 < 64 := by omega
      have h3 : b % 16 * 4 < 64 := by omega
      simp [encode, decode, charSextet_sextetChar h1, charSextet_sextetChar h2,
        charSextet_sextetChar h3, sextetChar_ne_pad h3]
      all_goals omega
  | case4 a b c rest ih =>
      intro h
      have ha : a < 256 := h a (by simp)
      have hb : b < 256 := h b (by simp)
      have hc : c < 256 := h c (by simp)
      have hrest : ∀ x ∈ rest, x < 256 := fun x hx => h x (by simp [hx])
      have h1 : a / 4 < 64 := by omega
      have h2 : a % 4 * 16 + b / 16 < 64 := by omega
      have h3 : b % 16 * 4 + c / 64 < 64 := by omega
      have h4 : c % 64 < 64 := by omega
      simp [encode, decode, charSextet_sextetChar h1, charSextet_sextetChar h2,
        charSextet_sextetChar h3, charSextet_sextetChar h4,
        sextetChar_ne_pad h3, sextetChar_ne_pad h4, ih hrest]
      all_goals omega

/-- C5: for every byte sequence B, decoding the transport-text encoding of
B yields B exactly (base64 round trip of `encode`/`decode`). -/
theorem claim_C5_theorem (B : List Nat) (h : ∀ b ∈ B, b < 256) :
    decode (encode B) = some B :=
  decode_encode_aux B h

/-- C5 witness: the round trip evaluated on the concrete bytes
`[0, 255, 77, 1]`. -/
theorem claim_C5_witness :
    (∀ b ∈ [0, 255, 77, 1], b < 256) ∧
      decode (encode [0, 255, 77, 1]) = some [0, 255, 77, 1] :=
  ⟨by decide, claim_C5_theorem [0, 255, 77, 1] (by decide)⟩

/-! ### PCM conversion

The capture side (`scriptProcessor.onaudioprocess`) does
`int16[i] = inputData[i] * 32768` into an `Int16Array`: the JavaScript
assignment truncates the number toward zero and wraps it modulo `2^16`
into the signed 16-bit range (no pre-clamping).  The playback side
(`decodeAudioData`) reinterprets the received bytes as little-endian
int16 samples and computes `dataInt16[i * numChannels + channel] / 32768.0`.
All the arithmetic involved is exact in binary floating point (scaling by
the power of two 32768, truncation, division by 32768), so rationals are
a faithful model of the float computations.
-/

/-- Wrap an integer into the signed 16-bit range, as storing into an
`Int16Array` does. -/
def toInt16 (n : ℤ) : ℤ := (n + 32768) % 65536 - 32768

/-- JavaScript number-to-integer truncation (toward zero). -/
def jsTrunc (q : ℚ) : ℤ := if q < 0 then ⌈q⌉ else ⌊q⌋

/-- One sample of `int16[i] = inputData[i] * 32768`. -/
def sampleToInt16 (q : ℚ) : ℤ := toInt16 (jsTrunc (q * 32768))

/-- The capture loop over a whole block of float samples. -/
def floatSamplesToInt16 (samples : List ℚ) : List ℤ := samples.map sampleToInt16

/-- One sample of `channelData[i] = dataInt16[...] / 32768.0`. -/
def int16SampleToFloat (n : ℤ) : ℚ := (n : ℚ) / 32768

/-- Serialization of an `Int16Array` as its underlying bytes
(`new Uint8Array(int16.buffer)`, little-endian). -/
def bytesOfInt16 : List ℤ → List ℕ
  | [] => []
  | v :: rest =>
      ((v % 65536).toNat % 256) :: ((v % 65536).toNat / 256) :: bytesOfInt16 rest

/-- Reinterpretation of bytes as int16 samples
(`new Int16Array(data.buffer)`, little-endian). -/
def bytesToInt16s : List ℕ → List ℤ
  | b0 :: b1 :: rest =>
      (if 32768 ≤ (b0 + 256 * b1 : ℤ) then (b0 + 256 * b1 : ℤ) - 65536
       else (b0 + 256 * b1 : ℤ)) :: bytesToInt16s rest
  | _ => []

/-- `decodeAudioData`: de-interleave int16 samples into `numChannels`
float channel buffers.  The source computes
`frameCount = dataInt16.length / numChannels` with no divisibility check;
the fractional frame count is truncated by the `createBuffer` argument
conversion and out-of-bounds writes of the copy loop are silently dropped,
so the net effect is `⌊length / numChannels⌋` frames per channel.  When
that truncated frame count is zero (fewer samples than channels, or a
zero channel count), `createBuffer` throws NotSupportedError — modelled
as `none`. -/
def decodeAudioData (dataInt16 : List ℤ) (numChannels : ℕ) :
    Option (List (List ℚ)) :=
  let frameCount := dataInt16.length / numChannels
  if frameCount = 0 then none
  else
    some ((List.range numChannels).map fun ch =>
      (List.range frameCount).map fun i =>
        int16SampleToFloat (dataInt16.getD (i * numChannels + ch) 0))

/-- Full per-sample round trip: float to int16 and back to float. -/
def pcmRoundTrip (q : ℚ) : ℚ := int16SampleToFloat (sampleToInt16 q)

theorem toInt16_eq_self {n : ℤ} (h1 : -32768 ≤ n) (h2 : n ≤ 32767) :
    toInt16 n = n := by
  unfold toInt16; omega

theorem toInt16_mem (n : ℤ) : -32768 ≤ toInt16 n ∧ toInt16 n < 32768 := by
  unfold toInt16; omega

theorem sampleToInt16_mem (q : ℚ) :
    -32768 ≤ sampleToInt16 q ∧ sampleToInt16 q < 32768 :=
  toInt16_mem _

/-- Byte serialization of in-range int16 values is reversible. -/
theorem bytesToInt16s_bytesOfInt16 :
    ∀ vs : List ℤ, (∀ v ∈ vs, -32768 ≤ v ∧ v < 32768) →
      bytesToInt16s (bytesOfInt16 vs) = vs := by
  intro vs
  induction vs with
  | nil => intro _; rfl
  | cons v rest ih =>
      intro h
      have hv := h v (by simp)
      have hrest : ∀ x ∈ rest, -32768 ≤ x ∧ x < 32768 :=
        fun x hx => h x (by simp [hx])
      simp only [bytesOfInt16, bytesToInt16s, ih hrest, List.cons.injEq]
      refine ⟨?_, trivial⟩
      split <;> omega

/-- Single-channel decode of a non-empty sample list is the pointwise
int16-to-float map. -/
theorem decodeAudioData_single (l : List ℤ) (h : l ≠ []) :
    decodeAudioData l 1 = some [l.map int16SampleToFloat] := by
  have hlen : l.length ≠ 0 := fun hc => h (List.length_eq_zero.mp hc)
  have hr1 : List.range 1 = [0] := by decide
  simp only [decodeAudioData, Nat.div_one, hr1, List.map_cons, List.map_nil,
    if_neg hlen, Option.some.injEq]
  congr 1
  apply List.ext_getElem
  · simp
  · intro i h1 h2
    simp only [List.getElem_map, List.getElem_range, mul_one, add_zero]
    rw [List.getD_eq_getElem _ _ (by simpa using h2)]

/-- Truncation after wrapping stays within one unit of the scaled sample,
for samples strictly below full scale. -/
theorem pcmRoundTrip_close (q : ℚ) (h1 : -1 ≤ q) (h2 : q < 1) :
    |q - pcmRoundTrip q| ≤ 1 / 32768 := by
  have hx1 : (-32768 : ℚ) ≤ q * 32768 := by linarith
  have hx2 : q * 32768 < 32768 := by linarith
  set x : ℚ := q * 32768 with hxdef
  have hb : -32768 ≤ jsTrunc x ∧ jsTrunc x ≤ 32767 ∧
      |x - (jsTrunc x : ℚ)| ≤ 1 := by
    unfold jsTrunc
    split
    next hneg =>
      have hceil1 : x ≤ (⌈x⌉ : ℚ) := Int.le_ceil x
      have hceil2 : (⌈x⌉ : ℚ) < x + 1 := Int.ceil_lt_add_one x
      have hle0 : ⌈x⌉ ≤ 0 := Int.ceil_le.mpr (by exact_mod_cast hneg.le)
      refine ⟨?_, by omega, ?_⟩
      · exact_mod_cast le_trans hx1 hceil1
      · rw [abs_le]
        constructor <;> linarith
    next hpos =>
      push_neg at hpos
      have hfl1 : (⌊x⌋ : ℚ) ≤ x := Int.floor_le x
      have hfl2 : x < (⌊x⌋ : ℚ) + 1 := Int.lt_floor_add_one x
      have hge0 : 0 ≤ ⌊x⌋ := Int.floor_nonneg.mpr hpos
      have hlt : ⌊x⌋ < 32768 := by
        rw [Int.floor_lt]
        exact_mod_cast hx2
      refine ⟨by omega, by omega, ?_⟩
      rw [abs_le]
      constructor <;> linarith
  obtain ⟨hb1, hb2, hb3⟩ := hb
  have hts : toInt16 (jsTrunc x) = jsTrunc x := toInt16_eq_self hb1 hb2
  unfold pcmRoundTrip int16SampleToFloat sampleToInt16
  rw [← hxdef, hts]
  have key : q - (jsTrunc x : ℚ) / 32768 = (x - (jsTrunc x : ℚ)) / 32768 := by
    rw [hxdef]; ring
  rw [key, abs_div]
  have habs : |(32768 : ℚ)| = 32768 := by norm_num
  rw [habs]
  gcongr

/-- C6 counterexample: the sample `1.0` lies in `[-1, 1]` but scales to
`32768`, which wraps to `-32768` in the `Int16Array`, so the round trip
returns `-1.0` — an absolute error of `2`, not within `1/32768`. -/
theorem claim_C6_counterexample :
    (-1 : ℚ) ≤ 1 ∧ (1 : ℚ) ≤ 1 ∧ pcmRoundTrip 1 = -1 ∧
      ¬ |(1 : ℚ) - pcmRoundTrip 1| ≤ 1 / 32768 := by
  have hfl : jsTrunc ((1 : ℚ) * 32768) = 32768 := by
    norm_num [jsTrunc]
  have hs : sampleToInt16 1 = -32768 := by
    rw [sampleToInt16, hfl]; decide
  have hrt : pcmRoundTrip 1 = -1 := by
    rw [pcmRoundTrip, hs]
    norm_num [int16SampleToFloat]
  refine ⟨by norm_num, le_refl 1, hrt, ?_⟩
  rw [hrt]
  norm_num

/-- C6 (amended): for every sample in `[-1, 1)` — full scale `1.0`
excluded, where the unclamped conversion wraps — the float-to-int16-bytes
to-float round trip (single channel) reproduces the sample within
`1/32768` absolute error. -/
theorem claim_C6_theorem (q : ℚ) (h1 : -1 ≤ q) (h2 : q < 1) :
    decodeAudioData (bytesToInt16s (bytesOfInt16 (floatSamplesToInt16 [q]))) 1 =
      some [[pcmRoundTrip q]] ∧
    |q - pcmRoundTrip q| ≤ 1 / 32768 := by
  constructor
  · have hmem : ∀ v ∈ floatSamplesToInt16 [q], -32768 ≤ v ∧ v < 32768 := by
      intro v hv
      simp only [floatSamplesToInt16, List.map_cons, List.map_nil,
        List.mem_singleton] at hv
      rw [hv]
      exact sampleToInt16_mem q
    rw [bytesToInt16s_bytesOfInt16 _ hmem,
      decodeAudioData_single _ (by simp [floatSamplesToInt16])]
    simp [floatSamplesToInt16, pcmRoundTrip]
  · exact pcmRoundTrip_close q h1 h2

/-- C6 witness: the amended round-trip bound evaluated at the concrete
sample `1/2`. -/
theorem claim_C6_witness :
    (-1 : ℚ) ≤ 1 / 2 ∧ (1 / 2 : ℚ) < 1 ∧
      |(1 / 2 : ℚ) - pcmRoundTrip (1 / 2)| ≤ 1 / 32768 :=
  ⟨by norm_num, by norm_num,
    (claim_C6_theorem (1 / 2) (by norm_num) (by norm_num)).2⟩

/-- Spec-described de-interleave `int16BytesToFloatChannels`, used only as
the refinement comparison for C7: per the spec it fails with FormatError
(modelled as `none`) when the channel count does not evenly divide the
sample count. -/
def int16BytesToFloatChannelsSpec (dataInt16 : List ℤ) (numChannels : ℕ) :
    Option (List (List ℚ)) :=
  if numChannels ∣ dataInt16.length then
    decodeAudioData dataInt16 numChannels
  else none

/-- C7 counterexample: on 3 samples and 2 channels the spec demands a
FormatError, but the code succeeds, returning two channels of one frame
each and silently dropping the third sample. -/
theorem claim_C7_counterexample :
    int16BytesToFloatChannelsSpec [100, -200, 300] 2 = none ∧
      decodeAudioData [100, -200, 300] 2 =
        some [[int16SampleToFloat 100], [int16SampleToFloat (-200)]] := by
  constructor
  · simp [int16BytesToFloatChannelsSpec]
  · rfl

/-- C7 (amended): there is no divisibility check and no FormatError.
With `N ≥ 1` channels and at least `N` samples the decode succeeds,
returning exactly `N` channel buffers, each of exactly `⌊L/N⌋` elements,
element `i` of channel `c` being sample `i·N + c` divided by `32768.0` —
a non-divisible remainder is dropped, not rejected; with fewer samples
than channels the truncated frame count is zero and `createBuffer` throws
NotSupportedError (still not the FormatError the spec describes). -/
theorem claim_C7_theorem (dataInt16 : List ℤ) (numChannels : ℕ)
    (h : 0 < numChannels) :
    (dataInt16.length < numChannels →
      decodeAudioData dataInt16 numChannels = none) ∧
    (numChannels ≤ dataInt16.length →
      ((decodeAudioData dataInt16 numChannels).getD []).length = numChannels ∧
      ((decodeAudioData dataInt16 numChannels).getD []).map List.length =
        List.replicate numChannels (dataInt16.length / numChannels) ∧
      decodeAudioData dataInt16 numChannels =
        some ((List.range numChannels).map fun ch =>
          (List.range (dataInt16.length / numChannels)).map fun i =>
            int16SampleToFloat (dataInt16.getD (i * numChannels + ch) 0))) := by
  constructor
  · intro hlt
    simp [decodeAudioData, Nat.div_eq_of_lt hlt]
  · intro hle
    have hfc : dataInt16.length / numChannels ≠ 0 := by
      have h1 := (Nat.one_le_div_iff h).mpr hle
      omega
    have hsome : decodeAudioData dataInt16 numChannels =
        some ((List.range numChannels).map fun ch =>
          (List.range (dataInt16.length / numChannels)).map fun i =>
            int16SampleToFloat (dataInt16.getD (i * numChannels + ch) 0)) := by
      simp only [decodeAudioData, if_neg hfc]
    refine ⟨?_, ?_, hsome⟩
    · simp [hsome]
    · rw [hsome]
      rw [Option.getD_some, List.eq_replicate_iff]
      constructor
      · simp
      · intro b hb
        simp only [List.map_map, List.mem_map] at hb
        obtain ⟨ch, _, hch⟩ := hb
        simp [← hch]

/-- C7 witness: four samples over two channels decode successfully into
two channel buffers of two frames each. -/
theorem claim_C7_witness :
    0 < 2 ∧ (2 : ℕ) ≤ 4 ∧
      ((decodeAudioData [100, -200, 300, 400] 2).getD []).map List.length =
        List.replicate 2 2 :=
  ⟨by decide, by decide,
    ((claim_C7_theorem [100, -200, 300, 400] 2 (by decide)).2 (by decide)).2.1⟩

/-! ### Exam-room session state

One state record holds the mutable refs and hook state of the exam-room
component: the playback scheduler (`nextStartTimeRef`, `sourcesRef`,
examiner-speaking flag), the transcript assembler (the two pending text
accumulators and the committed log), the teardown flag (`isClosingRef`),
the session/stream/timer handles, the error banner, and — to make effects
observable — append-only logs of scheduled playback starts (`startedAt`),
forcibly stopped playback tokens (`stoppedSources`), queued reconnect
timers (`pendingRetryDelays`), connect attempts, and outbound channel
messages.  Playback buffers are identified by consecutive token ids; a
decoded audio buffer is abstracted by its duration.
-/

inductive Role
  | user
  | examiner
deriving DecidableEq

structure TranscriptionEntry where
  role : Role
  text : String
  timestamp : ℚ
  avatar : String
  senderName : String
deriving DecidableEq

structure Persona where
  id : String
  label : String
  description : String
  icon : String
  instruction : String
  voiceName : String

/-- Static persona configuration table of the exam room. -/
def PERSONAS : List Persona :=
  [{ id := "Charon", label := "Prof. Sterling",
     description := "The Academic: Strict, formal, and demands mathematical rigor. Speaks fluent Hinglish.",
     icon := "👨‍💼", voiceName := "Charon",
     instruction := "You are Prof. Sterling. You are very strict and only accept precise, textbook definitions. You often interrupt students if they are vague. You use Hindi for transitions but expect technical terms in pure English. You are cold and professional." },
   { id := "Puck", label := "Dr. Ray",
     description := "The Innovator: Energetic and focuses on tech applications. Interactive in Hindi/English.",
     icon := "👦", voiceName := "Puck",
     instruction := "You are Dr. Ray, a young, excited researcher. You care about how physics changes the world. You ask questions about real-life tech like EVs or Space Travel. You are friendly and use lots of Hinglish." },
   { id := "Kore", label := "Dr. Elena",
     description := "The Analyst: Calm, precise, and laboratory-focused. Precise bilingual examiner.",
     icon := "👩‍🏫", voiceName := "Kore",
     instruction := "You are Dr. Elena. You focus exclusively on experiments. You ask about instruments like Screw Gauges, Vernier Calipers, and Multimeters. You want to know about least counts and zero errors. You are calm and methodical." },
   { id := "Fenrir", label := "Prof. Magnus",
     description := "The Veteran: Stern, brief, and values direct answers. Direct Hinglish commands.",
     icon := "👴", voiceName := "Fenrir",
     instruction := "You are Prof. Magnus. You have 40 years of experience and are very tired. You want short, one-word or one-sentence answers. If a student rambles, you tell them to get to the point. You are very grumpy." },
   { id := "Zephyr", label := "Mr. Aris",
     description := "The Mentor: Friendly, warm, and encourages best efforts in your native style.",
     icon := "👤", voiceName := "Zephyr",
     instruction := "You are Mr. Aris. You are like a supportive teacher. You guide the student if they get stuck. You use simple Hindi to explain the question if the student is nervous. You are very kind." }]

/-- The fields of a `LiveServerMessage` that the handler inspects.  The
audio payload (`serverContent.modelTurn.parts[0].inlineData.data`) is
abstracted by the duration of the buffer it decodes to. -/
structure ServerMessage where
  audioDuration : Option ℚ
  outputTranscription : Option String
  inputTranscription : Option String
  turnComplete : Bool
  interrupted : Bool

structure OutboundMsg where
  data : String
  mimeType : String
deriving DecidableEq

structure ExamState where
  nextStartTime : ℚ
  sources : List ℕ
  stoppedSources : List ℕ
  nextSourceId : ℕ
  startedAt : List (ℕ × ℚ)
  isExaminerSpeaking : Bool
  currentInputText : String
  currentOutputText : String
  transcriptions : List TranscriptionEntry
  isClosing : Bool
  hasSession : Bool
  hasStream : Bool
  hasFrameInterval : Bool
  errorMessage : Option String
  pendingRetryDelays : List ℕ
  connectAttempts : ℕ
  outbound : List OutboundMsg
deriving DecidableEq

/-- Values of the refs and hooks when the component mounts. -/
def initialState : ExamState :=
  { nextStartTime := 0, sources := [], stoppedSources := [], nextSourceId := 0,
    startedAt := [], isExaminerSpeaking := false, currentInputText := "",
    currentOutputText := "", transcriptions := [], isClosing := false,
    hasSession := false, hasStream := false, hasFrameInterval := false,
    errorMessage := none, pendingRetryDelays := [], connectAttempts := 0,
    outbound := [] }

/-- Committed candidate turn (`role: 'user'`, avatar `'👤'`,
`senderName: 'Candidate'`). -/
def candidateEntry (text : String) (wallNow : ℚ) : TranscriptionEntry :=
  { role := Role.user, text := text, timestamp := wallNow,
    avatar := "👤", senderName := "Candidate" }

/-- Committed examiner turn (`role: 'examiner'`, persona icon and label). -/
def examinerEntry (p : Persona) (text : String) (wallNow : ℚ) : TranscriptionEntry :=
  { role := Role.examiner, text := text, timestamp := wallNow,
    avatar := p.icon, senderName := p.label }

/-- The `onmessage` callback: audio scheduling, transcription accumulation
(output takes priority over input — they are `if`/`else if` branches),
turn-complete flush, and interruption handling, in source order.
`clockNow` is `outputAudioContext.currentTime`, `wallNow` is `Date.now()`. -/
def onmessage (p : Persona) (clockNow wallNow : ℚ) (st : ExamState)
    (msg : ServerMessage) : ExamState :=
  let st :=
    match msg.audioDuration with
    | some d =>
        let nst := max st.nextStartTime clockNow
        { st with
          isExaminerSpeaking := true
          nextStartTime := nst + d
          startedAt := st.startedAt ++ [(st.nextSourceId, nst)]
          sources := st.sources ++ [st.nextSourceId]
          nextSourceId := st.nextSourceId + 1 }
    | none => st
  let st :=
    match msg.outputTranscription with
    | some t => { st with currentOutputText := st.currentOutputText ++ t }
    | none =>
        match msg.inputTranscription with
        | some t => { st with currentInputText := st.currentInputText ++ t }
        | none => st
  let st :=
    if msg.turnComplete then
      { st with
        transcriptions := st.transcriptions
          ++ (if st.currentInputText = "" then []
              else [candidateEntry st.currentInputText wallNow])
          ++ (if st.currentOutputText = "" then []
              else [examinerEntry p st.currentOutputText wallNow])
        currentInputText := ""
        currentOutputText := "" }
    else st
  if msg.interrupted then
    { st with
      stoppedSources := st.stoppedSources ++ st.sources
      sources := []
      nextStartTime := 0
      isExaminerSpeaking := false }
  else st

/-- Process a list of inbound messages in arrival order, each with its
output-clock and wall-clock reading. -/
def runMessages (p : Persona) : List (ServerMessage × ℚ × ℚ) → ExamState → ExamState
  | [], st => st
  | (msg, clockNow, wallNow) :: rest, st =>
      runMessages p rest (onmessage p clockNow wallNow st msg)

/-- Message carrying only an audio payload (of the given decoded duration). -/
def audioMsg (d : ℚ) : ServerMessage :=
  { audioDuration := some d, outputTranscription := none,
    inputTranscription := none, turnComplete := false, interrupted := false }

/-- Message carrying only an output (examiner) transcript fragment. -/
def outFrag (t : String) : ServerMessage :=
  { audioDuration := none, outputTranscription := some t,
    inputTranscription := none, turnComplete := false, interrupted := false }

/-- Message carrying only an input (candidate) transcript fragment. -/
def inFrag (t : String) : ServerMessage :=
  { audioDuration := none, outputTranscription := none,
    inputTranscription := some t, turnComplete := false, interrupted := false }

/-- Bare turn-complete signal. -/
def turnCompleteMsg : ServerMessage :=
  { audioDuration := none, outputTranscription := none,
    inputTranscription := none, turnComplete := true, interrupted := false }

/-- Bare interrupted (barge-in) signal. -/
def interruptedMsg : ServerMessage :=
  { audioDuration := none, outputTranscription := none,
    inputTranscription := none, turnComplete := false, interrupted := true }

/-- Effect of one audio-payload message: clamp `nextStartTime` to the
output clock, schedule the buffer there, advance by its duration. -/
theorem onmessage_audio (p : Persona) (c w : ℚ) (st : ExamState) (d : ℚ) :
    onmessage p c w st (audioMsg d) =
      { st with
        isExaminerSpeaking := true
        nextStartTime := max st.nextStartTime c + d
        startedAt := st.startedAt ++ [(st.nextSourceId, max st.nextStartTime c)]
        sources := st.sources ++ [st.nextSourceId]
        nextSourceId := st.nextSourceId + 1 } := by
  simp [onmessage, audioMsg]

/-- C1: buffers of durations d1, d2, d3 enqueued at non-decreasing output
clock readings, each at most the buffer's predicted start, play
back-to-back: each enqueue sets `nextStartTime` to
`max(nextStartTime, outputClockNow)`, schedules the buffer there and
advances `nextStartTime` by the duration, so from a fresh scheduler the
start times are t0, t0+d1, t0+d1+d2. -/
theorem claim_C1_theorem (p : Persona) (st0 : ExamState)
    (d1 d2 d3 t0 t1 t2 w : ℚ)
    (hnst : st0.nextStartTime = 0)
    (ht0 : 0 ≤ t0) (_h01 : t0 ≤ t1) (_h12 : t1 ≤ t2)
    (hp1 : t1 ≤ t0 + d1) (hp2 : t2 ≤ t0 + d1 + d2) :
    (onmessage p t0 w st0 (audioMsg d1)).nextStartTime = t0 + d1 ∧
    (onmessage p t1 w (onmessage p t0 w st0 (audioMsg d1))
        (audioMsg d2)).nextStartTime = t0 + d1 + d2 ∧
    (onmessage p t2 w (onmessage p t1 w (onmessage p t0 w st0 (audioMsg d1))
        (audioMsg d2)) (audioMsg d3)).nextStartTime = t0 + d1 + d2 + d3 ∧
    (onmessage p t2 w (onmessage p t1 w (onmessage p t0 w st0 (audioMsg d1))
        (audioMsg d2)) (audioMsg d3)).startedAt =
      st0.startedAt ++
        [(st0.nextSourceId, t0), (st0.nextSourceId + 1, t0 + d1),
         (st0.nextSourceId + 2, t0 + d1 + d2)] := by
  simp only [onmessage_audio, hnst, max_eq_right ht0]
  rw [max_eq_left hp1, max_eq_left hp2]
  simp

/-- Persona used to instantiate witnesses (the first entry of the table). -/
def witnessPersona : Persona :=
  { id := "Charon", label := "Prof. Sterling",
    description := "The Academic: Strict, formal, and demands mathematical rigor. Speaks fluent Hinglish.",
    icon := "👨‍💼", voiceName := "Charon",
    instruction := "You are Prof. Sterling. You are very strict and only accept precise, textbook definitions. You often interrupt students if they are vague. You use Hindi for transitions but expect technical terms in pure English. You are cold and professional." }

/-- C1 witness: three buffers of durations 1, 2, 3 enqueued at clocks
0, 1, 2 from the freshly mounted state start at 0, 1, 3. -/
theorem claim_C1_witness :
    (initialState.nextStartTime = 0 ∧ (0 : ℚ) ≤ 0 ∧ (0 : ℚ) ≤ 1 ∧ (1 : ℚ) ≤ 2 ∧
      (1 : ℚ) ≤ 0 + 1 ∧ (2 : ℚ) ≤ 0 + 1 + 2) ∧
    (onmessage witnessPersona 2 0
      (onmessage witnessPersona 1 0
        (onmessage witnessPersona 0 0 initialState (audioMsg 1)) (audioMsg 2))
      (audioMsg 3)).startedAt = [(0, 0), (1, 0 + 1), (2, 0 + 1 + 2)] := by
  refine ⟨⟨rfl, le_refl 0, by norm_num, by norm_num, by norm_num, by norm_num⟩, ?_⟩
  have h := claim_C1_theorem witnessPersona initialState 1 2 3 0 1 2 0 rfl
    (le_refl 0) (by norm_num) (by norm_num) (by norm_num) (by norm_num)
  simpa [initialState] using h.2.2.2

/-- C2: a turn-complete signal flushes exactly the non-empty pending
accumulators, candidate entry before examiner entry, then resets both;
in particular input fragments "A","B" and output fragment "C" followed by
turn-complete commit exactly [candidate "AB", examiner "C"], and output
fragments alone commit exactly one examiner entry. -/
theorem claim_C2_theorem (st : ExamState) (p : Persona) (c w : ℚ) :
    (onmessage p c w st turnCompleteMsg).transcriptions =
      st.transcriptions
        ++ (if st.currentInputText = "" then []
            else [candidateEntry st.currentInputText w])
        ++ (if st.currentOutputText = "" then []
            else [examinerEntry p st.currentOutputText w]) ∧
    (onmessage p c w st turnCompleteMsg).currentInputText = "" ∧
    (onmessage p c w st turnCompleteMsg).currentOutputText = "" ∧
    (runMessages p [(inFrag "A", 0, 0), (inFrag "B", 0, 0), (outFrag "C", 0, 0),
        (turnCompleteMsg, 0, 0)] initialState).transcriptions =
      [candidateEntry "AB" 0, examinerEntry p "C" 0] ∧
    (runMessages p [(outFrag "C", 0, 0), (turnCompleteMsg, 0, 0)]
        initialState).transcriptions =
      [examinerEntry p "C" 0] := by
  refine ⟨?_, ?_, ?_, ?_, ?_⟩ <;>
    simp [onmessage, runMessages, turnCompleteMsg, inFrag, outFrag, initialState]

/-- C4: the interrupted-signal branch force-stops every active playback
token, empties the active set, resets `nextStartTime` to 0 and clears the
examiner-speaking flag, whatever the prior state. -/
theorem claim_C4_theorem (st : ExamState) (p : Persona) (c w : ℚ) :
    (onmessage p c w st interruptedMsg).sources = [] ∧
    (onmessage p c w st interruptedMsg).nextStartTime = 0 ∧
    (onmessage p c w st interruptedMsg).isExaminerSpeaking = false ∧
    (onmessage p c w st interruptedMsg).stoppedSources =
      st.stoppedSources ++ st.sources := by
  simp [onmessage, interruptedMsg]

/-- C10: a message carrying both transcription kinds only appends the
output fragment — the `else if` makes the branches mutually exclusive, so
the input fragment is discarded and nothing else changes. -/
theorem claim_C10_theorem (st : ExamState) (p : Persona) (c w : ℚ)
    (o i : String) :
    onmessage p c w st
      { audioDuration := none, outputTranscription := some o,
        inputTranscription := some i, turnComplete := false,
        interrupted := false } =
      { st with currentOutputText := st.currentOutputText ++ o } := by
  simp [onmessage]

/-! ### Capture producers and closing guard

`scriptProcessor.onaudioprocess` and the 3-second camera interval both
check the closing flag (and the session ref) synchronously on entry, and
their `sessionPromise.then` continuations check the closing flag again at
continuation run time before calling `sendRealtimeInput`.  The entry
phase returns the payload handed to the continuation (or `none` when the
block/frame is dropped); the continuation phase appends to the outbound
log only if its own guard passes.
-/

/-- Entry of `scriptProcessor.onaudioprocess`: drop the block when
closing or no active session, otherwise build the PCM payload
(`encode(new Uint8Array(int16.buffer))`, mime `audio/pcm;rate=16000`). -/
def onaudioprocess (st : ExamState) (inputData : List ℚ) : Option OutboundMsg :=
  if st.isClosing || !st.hasSession then none
  else
    some { data := String.mk (encode (bytesOfInt16 (floatSamplesToInt16 inputData)))
           mimeType := "audio/pcm;rate=16000" }

/-- The `sessionPromise.then(s => if (s && !isClosingRef.current)
s.sendRealtimeInput(...))` continuation: `resolved` is whether the promise
resolved with a non-null session; the closing flag is read from the state
at the moment the continuation runs. -/
def sendContinuation (st : ExamState) (resolved : Bool) (payload : OutboundMsg) :
    ExamState :=
  if resolved && !st.isClosing then { st with outbound := st.outbound ++ [payload] }
  else st

/-- Entry of the camera interval callback: requires live video/canvas
refs, not closing, and an active session; with a 2d context it produces
the JPEG payload for the continuation. -/
def frameTick (st : ExamState) (hasVideo hasCanvas hasCtx : Bool)
    (base64Data : String) : Option OutboundMsg :=
  if hasVideo && hasCanvas && !st.isClosing && st.hasSession then
    if hasCtx then some { data := base64Data, mimeType := "image/jpeg" }
    else none
  else none

/-- C3: with the closing flag set, the audio producer drops its block at
entry, the image producer drops its frame at entry, and a send
continuation that runs after the flag is set forwards nothing — the
outbound log is unchanged in every case. -/
theorem claim_C3_theorem (st : ExamState) (inputData : List ℚ) (resolved : Bool)
    (payload : OutboundMsg) (hasVideo hasCanvas hasCtx : Bool)
    (base64Data : String) :
    onaudioprocess { st with isClosing := true } inputData = none ∧
    sendContinuation { st with isClosing := true } resolved payload =
      { st with isClosing := true } ∧
    frameTick { st with isClosing := true } hasVideo hasCanvas hasCtx
      base64Data = none := by
  refine ⟨by simp [onaudioprocess], by simp [sendContinuation],
    by simp [frameTick]⟩

/-! ### Controller teardown and error recovery -/

/-- `stopActiveSession`: close and null the session handle, cancel the
camera interval, force-stop and clear all scheduled audio, clear the
examiner-speaking flag. -/
def stopActiveSession (st : ExamState) : ExamState :=
  { st with
    hasSession := false
    hasFrameInterval := false
    stoppedSources := st.stoppedSources ++ st.sources
    sources := []
    isExaminerSpeaking := false }

/-- The unmount cleanup of the session effect: set the closing flag, run
`stopActiveSession`, stop the media tracks.  Note that it neither clears
any pending `setTimeout` reconnect timer nor touches the retry queue. -/
def teardown (st : ExamState) : ExamState :=
  { stopActiveSession { st with isClosing := true } with hasStream := false }

/-- The `onerror` callback: surface a transient error banner and queue a
`setTimeout(startSession, 1500)` reconnect timer. -/
def onerror (st : ExamState) : ExamState :=
  { st with
    errorMessage := some "System error. Restarting..."
    pendingRetryDelays := st.pendingRetryDelays ++ [1500] }

/-- A queued reconnect timer elapsing: the callback runs `startSession`
unconditionally — `startSession` clears the error banner, runs
`stopActiveSession`, and issues a fresh connect; it never consults the
closing flag. -/
def retryTimerFire (st : ExamState) : ExamState :=
  match st.pendingRetryDelays with
  | [] => st
  | _ :: rest =>
      let st := stopActiveSession
        { st with pendingRetryDelays := rest, errorMessage := none }
      { st with connectAttempts := st.connectAttempts + 1 }

/-- A state in the Open phase: channel connected, producers running. -/
def liveState : ExamState :=
  { initialState with
    hasSession := true
    hasStream := true
    hasFrameInterval := true }

/-- C8 counterexample: tear the controller down right after a channel
error, before the 1.5 s delay elapses — the queued timer survives
teardown and its firing still performs a connect attempt, so the claim
that no retry happens after teardown is false. -/
theorem claim_C8_counterexample :
    (teardown (onerror liveState)).isClosing = true ∧
    (teardown (onerror liveState)).pendingRetryDelays = [1500] ∧
    (retryTimerFire (teardown (onerror liveState))).connectAttempts = 1 := by
  refine ⟨rfl, rfl, rfl⟩

/-- C8 (amended): a channel error surfaces the transient banner and
queues a reconnect attempt with a fixed 1.5 s delay; the retry is
unconditional — teardown leaves the queued timer in place, and the firing
timer performs the connect attempt even with the closing flag set. -/
theorem claim_C8_theorem (st : ExamState) :
    (onerror st).errorMessage = some "System error. Restarting..." ∧
    (onerror st).pendingRetryDelays = st.pendingRetryDelays ++ [1500] ∧
    (teardown st).pendingRetryDelays = st.pendingRetryDelays ∧
    (retryTimerFire { st with
        isClosing := true
        pendingRetryDelays := 1500 :: st.pendingRetryDelays }).connectAttempts =
      st.connectAttempts + 1 ∧
    (retryTimerFire { st with
        isClosing := true
        pendingRetryDelays := 1500 :: st.pendingRetryDelays }).pendingRetryDelays =
      st.pendingRetryDelays := by
  refine ⟨rfl, rfl, rfl, rfl, rfl⟩

/-! ### Post-session report generation

`generateReport` in the app wraps the evaluation call in `try`/`catch`:
a thrown failure (network error, or `JSON.parse` on malformed text) is
caught and replaced by a fixed fallback report; a successfully parsed
JSON value is cast to `ExamStats` with no validation of its fields.
The parse result is modelled as a record of optional fields.
-/

/-- The result of `JSON.parse(response.text || '{}') as ExamStats`: an
unvalidated object whose required fields may be absent. -/
structure RawStats where
  grade : Option String
  score : Option ℚ
  feedback : Option String
  strengths : Option (List String)
  weaknesses : Option (List String)
  topicsCovered : Option (List String)
deriving DecidableEq

/-- Outcome of the evaluation call: the request throws (network error),
or it returns text — `none` models text on which `JSON.parse` throws,
`some r` a successfully parsed object (missing `response.text` parses the
substituted `'{}'` to the all-absent record). -/
inductive ReportOutcome
  | netError
  | reply (parsed : Option RawStats)

/-- The fixed fallback report installed by the `catch` branch. -/
def fallbackStats : RawStats :=
  { grade := some "B", score := some 75,
    feedback := some "Session completed successfully. Evaluation failed to generate, but completion is logged.",
    strengths := some ["Punctuality", "Basic interaction"],
    weaknesses := some ["Technical details unclear"],
    topicsCovered := some ["General Physics"] }

/-- The parse result of `'{}'`: every field absent. -/
def emptyRaw : RawStats :=
  { grade := none, score := none, feedback := none, strengths := none,
    weaknesses := none, topicsCovered := none }

/-- `generateReport`: thrown failures are caught and replaced by the
fallback; parsed replies are stored as-is, unvalidated.  The function is
total into a stats record — no error state exists in its codomain. -/
def generateReport : ReportOutcome → RawStats
  | ReportOutcome.netError => fallbackStats
  | ReportOutcome.reply none => fallbackStats
  | ReportOutcome.reply (some r) => r

/-- C9 counterexample: a syntactically valid JSON reply missing every
required field (e.g. `'{}'`) is stored as-is — the fallback report is not
substituted, contradicting the claim for the missing-fields failure
mode. -/
theorem claim_C9_counterexample :
    generateReport (ReportOutcome.reply (some emptyRaw)) = emptyRaw ∧
    emptyRaw.grade = none ∧
    generateReport (ReportOutcome.reply (some emptyRaw)) ≠ fallbackStats := by
  refine ⟨rfl, rfl, by decide⟩

/-- C9 (amended): on a thrown failure — network error or malformed JSON —
the caller substitutes the fixed fallback report and surfaces no error
state; a reply that parses but lacks required fields is not detected and
is stored unchanged instead of the fallback. -/
theorem claim_C9_theorem (r : RawStats) :
    generateReport ReportOutcome.netError = fallbackStats ∧
    generateReport (ReportOutcome.reply none) = fallbackStats ∧
    generateReport (ReportOutcome.reply (some r)) = r := by
  refine ⟨rfl, rfl, rfl⟩

end PhysicsViva
